import Mathlib

/-!
Verification of the chess-game frontend stores, the advisory-turn effect in
`Chessboard.tsx`, and the spec-described backend components (move engine,
plan cache, configuration store).  Frontend definitions are shallow embeddings
of the TypeScript source; backend components whose Python source is not in
the repository snapshot are modelled from the specification, as marked.
-/

set_option maxRecDepth 4096

/-- Piece colors, from the `PieceColor` union type in the store sources. -/
inductive PieceColor where
  | white
  | black
deriving DecidableEq, Repr

/-- Piece kinds, from the `PieceType` union type in the store sources. -/
inductive PieceType where
  | K | Q | R | B | N | P
deriving DecidableEq, Repr

/-- The non-null part of the source's `Piece` type: `{ type; color }`. -/
structure PieceVal where
  type : PieceType
  color : PieceColor
deriving DecidableEq, Repr

/-- The source's `Piece` type is `{ type; color } | null`. -/
abbrev Piece := Option PieceVal

/-- The source's `Board` type: `Piece[][]`, row-major, row 0 = rank 8. -/
abbrev Board := List (List Piece)

/-- Flip of `turn === 'white' ? 'black' : 'white'`. -/
def flipColor : PieceColor → PieceColor
  | .white => .black
  | .black => .white

/-- Read `board[r][c]`; out-of-range reads give `none` (JS `undefined`). -/
def pieceAt (b : Board) (r c : Nat) : Piece :=
  (b.getD r []).getD c none

/-- Write `board[r][c] = p` on a fresh copy, as the stores do after
`board.map(row => row.slice())`. -/
def setSquare (b : Board) (r c : Nat) (p : Piece) : Board :=
  b.set r ((b.getD r []).set c p)

/-- Back rank of `getInitialBoard` for one color. -/
def backRank (c : PieceColor) : List Piece :=
  [some ⟨.R, c⟩, some ⟨.N, c⟩, some ⟨.B, c⟩, some ⟨.Q, c⟩,
   some ⟨.K, c⟩, some ⟨.B, c⟩, some ⟨.N, c⟩, some ⟨.R, c⟩]

/-- A rank of eight pawns of one color, from `Array.from({length: 8}, ...)`. -/
def pawnRank (c : PieceColor) : List Piece :=
  List.replicate 8 (some ⟨.P, c⟩)

/-- An empty rank. -/
def emptyRank : List Piece := List.replicate 8 none

/-- `getInitialBoard()` from the store sources: black back rank and pawns on
rows 0-1, four empty rows, white pawns and back rank on rows 6-7. -/
def getInitialBoard : Board :=
  [backRank .black, pawnRank .black,
   emptyRank, emptyRank, emptyRank, emptyRank,
   pawnRank .white, backRank .white]

/-- Printable color name used in the local store's history strings. -/
def colorText : PieceColor → String
  | .white => "white"
  | .black => "black"

/-- Printable piece letter used in history strings and wire codes. -/
def typeText : PieceType → String
  | .K => "K"
  | .Q => "Q"
  | .R => "R"
  | .B => "B"
  | .N => "N"
  | .P => "P"

namespace LocalStore

/-- State of the local-only zustand store (`part_003`): board, string move
history, turn, and the currently selected square. -/
structure LocalState where
  board : Board
  moveHistory : List String
  turn : PieceColor
  selectedSquare : Option (Nat × Nat)
deriving DecidableEq, Repr

/-- The history string
`` `${piece.color} ${piece.type}: (${fromRow},${fromCol}) → (${toRow},${toCol})` ``. -/
def moveText (p : PieceVal) (fromRow fromCol toRow toCol : Nat) : String :=
  colorText p.color ++ " " ++ typeText p.type ++ ": (" ++ toString fromRow ++ ","
    ++ toString fromCol ++ ") → (" ++ toString toRow ++ "," ++ toString toCol ++ ")"

/-- `movePiece(to)` of the local store (`part_003`): returns unchanged when no
square is selected, no piece is on it, or the piece is not the on-turn color;
otherwise copies the board, writes the piece at `to`, then writes `null` at
the source (in that order), appends a history string, flips the turn, and
clears the selection.  No `from == to` or game-over check exists here. -/
def movePiece (s : LocalState) (dest : Nat × Nat) : LocalState :=
  match s.selectedSquare with
  | none => s
  | some (fromRow, fromCol) =>
    let toRow := dest.1
    let toCol := dest.2
    match pieceAt s.board fromRow fromCol with
    | none => s
    | some piece =>
      if piece.color ≠ s.turn then s
      else
        { board := setSquare (setSquare s.board toRow toCol (some piece)) fromRow fromCol none,
          moveHistory := s.moveHistory ++ [moveText piece fromRow fromCol toRow toCol],
          turn := flipColor s.turn,
          selectedSquare := none }

/-- `reset()` of the local store. -/
def reset : LocalState :=
  { board := getInitialBoard, moveHistory := [], turn := .white, selectedSquare := none }

end LocalStore

/-- File letters `'abcdefgh'` used by both board conversions. -/
def wireFiles : List Char := ['a', 'b', 'c', 'd', 'e', 'f', 'g', 'h']

/-- Rank digits `'87654321'` (row 0 of the frontend board is rank 8). -/
def wireRanks : List Char := ['8', '7', '6', '5', '4', '3', '2', '1']

/-- The wire key `file + rank` for one square, e.g. `"e2"`. -/
def squareKey (file rank : Char) : String :=
  String.mk [file, rank]

/-- Piece-code letter of a type for the wire representation. -/
def typeChar : PieceType → Char
  | .K => 'K'
  | .Q => 'Q'
  | .R => 'R'
  | .B => 'B'
  | .N => 'N'
  | .P => 'P'

/-- Inverse of `typeChar` on upper-case letters, `none` elsewhere.  The source
performs an unchecked cast `code.toUpperCase() as PieceType`; codes outside
the six piece letters are outside the modelled domain. -/
def charToType (c : Char) : Option PieceType :=
  if c = 'K' then some .K
  else if c = 'Q' then some .Q
  else if c = 'R' then some .R
  else if c = 'B' then some .B
  else if c = 'N' then some .N
  else if c = 'P' then some .P
  else none

/-- Decoding of one wire piece code, from `backendBoardToFrontend`
(`part_004`): `'.'` (or an absent key, folded into the `'.'` default of the
wire map) is empty; otherwise the case of the code gives the color and its
upper-case form gives the type. -/
def codeToPiece (code : Char) : Piece :=
  if code = '.' then none
  else
    match charToType code.toUpper with
    | some t => some { type := t, color := if code = code.toUpper then .white else .black }
    | none => none

/-- A wire board: total map from square keys to piece codes, `'.'` denoting
empty (absent keys of the JSON object are read as empty by the source). -/
abbrev WireBoard := String → Char

/-- `backendBoardToFrontend(board)` from `part_004`: builds the 8×8 frontend
board by mapping over the rank digits and file letters and decoding the code
found at each `file + rank` key. -/
def backendBoardToFrontend (board : WireBoard) : Board :=
  wireRanks.map fun rank =>
    wireFiles.map fun file => codeToPiece (board (squareKey file rank))

/-- Modelled from the spec: the backend's square→piece-code serialization
(the Python `board_to_dict` is not in the repository snapshot).  Case
distinguishes color — upper for white, lower for black — and `'.'` is the
empty sentinel. -/
def pieceCode (p : Piece) : Char :=
  match p with
  | none => '.'
  | some q => if q.color = .white then typeChar q.type else (typeChar q.type).toLower

/-- Move record mirrored from the backend, as declared in `part_001`/`part_004`
(`algebraicNote` embeds the source's algebraic-notation string field). -/
structure MoveRecord where
  from_pos : String
  to_pos : String
  piece : String
  color : PieceColor
  captured_piece : Option String
  is_capture : Bool
  algebraicNote : String
  turn_number : Nat
deriving DecidableEq, Repr

/-- Payload of a successful `/board`, `/move` or `/ai-play` response as the
remote store consumes it: wire board, turn string, game-over flag, history. -/
structure ServerGameData where
  board : WireBoard
  turn : String
  game_over : Bool
  move_history : List MoveRecord

/-- `data.turn === 'white' ? 'white' : 'black'` from `part_004`. -/
def strToColor (s : String) : PieceColor :=
  if s = "white" then .white else .black

namespace RemoteStore

/-- State of the backend-synchronized zustand store (`part_004`). -/
structure RemoteState where
  board : Board
  moveHistory : List MoveRecord
  turn : PieceColor
  gameOver : Bool
  selectedSquare : Option (Nat × Nat)
  loading : Bool
  error : Option String
deriving DecidableEq, Repr

/-- `sendMove(from, to)` from `part_004`, with the transport outcome made an
explicit argument: returns immediately (state unchanged) when the game is
over; on a successful response installs the decoded board, turn, game-over
flag and history and clears `loading`/`error`; on a thrown transport error
records the message and clears `loading`. -/
def sendMove (s : RemoteState) (fromSq toSq : Nat × Nat)
    (result : Except String ServerGameData) : RemoteState :=
  if s.gameOver then s
  else
    match result with
    | .ok data =>
      { s with
        board := backendBoardToFrontend data.board,
        turn := strToColor data.turn,
        gameOver := data.game_over,
        moveHistory := data.move_history,
        loading := false,
        error := none }
    | .error msg => { s with loading := false, error := some msg }

/-- `reset()` from `part_004`: restores the initial board, empties the
history, sets white to move, clears the selection and the game-over flag. -/
def reset (s : RemoteState) : RemoteState :=
  { s with
    board := getInitialBoard,
    moveHistory := [],
    turn := .white,
    selectedSquare := none,
    gameOver := false }

end RemoteStore

namespace Engine

/-- Modelled from the spec: the backend session state (BoardState + MoveLedger;
the Python `game_engine.py` is not in the repository snapshot): position,
side to move, game-over flag, and the append-only move ledger. -/
structure GameState where
  board : Board
  turn : PieceColor
  gameOver : Bool
  history : List MoveRecord
deriving DecidableEq, Repr

/-- Modelled from the spec: errors of `MoveApplier.apply` — `InvalidMove` for
no piece / wrong color / `from == to`, `ReadOnlyViolation` after game over. -/
inductive MoveError where
  | invalidMove
  | readOnlyViolation
deriving DecidableEq, Repr

/-- Wire name of a square given its frontend row/column indices. -/
def posName (sq : Nat × Nat) : String :=
  squareKey (wireFiles.getD sq.2 ' ') (wireRanks.getD sq.1 ' ')

/-- Modelled from the spec: the ledger record appended for one applied move;
`turn_number` of the i-th (0-indexed) record is `floor(i/2)+1`, so the record
appended at ledger length `n` carries `n/2 + 1`. -/
def mkRecord (p : PieceVal) (src dst : Nat × Nat) (captured : Piece)
    (ledgerLen : Nat) : MoveRecord :=
  { from_pos := posName src,
    to_pos := posName dst,
    piece := typeText p.type,
    color := p.color,
    captured_piece := captured.map fun q => typeText q.type,
    is_capture := captured.isSome,
    algebraicNote := typeText p.type ++ posName dst,
    turn_number := ledgerLen / 2 + 1 }

/-- Modelled from the spec: `MoveApplier.apply(board, from, to)` of the backend
engine (not in the repository snapshot).  Rejects with `ReadOnlyViolation`
when the game is over, with `InvalidMove` when there is no piece at the
source, the piece is not the on-turn color, or source equals destination;
otherwise atomically relocates the piece, records any capture, appends a
ledger record, flips the turn, and sets `gameOver` when a King was captured. -/
def applyMove (g : GameState) (src dst : Nat × Nat) : Except MoveError GameState :=
  if g.gameOver then .error .readOnlyViolation
  else
    match pieceAt g.board src.1 src.2 with
    | none => .error .invalidMove
    | some p =>
      if p.color ≠ g.turn then .error .invalidMove
      else if src = dst then .error .invalidMove
      else
        let captured := pieceAt g.board dst.1 dst.2
        .ok
          { board := setSquare (setSquare g.board src.1 src.2 none) dst.1 dst.2 (some p),
            turn := flipColor g.turn,
            gameOver := captured.any fun q => q.type = .K,
            history := g.history ++ [mkRecord p src dst captured g.history.length] }

/-- Modelled from the spec: the session state at start or after reset —
standard starting position, white to move, empty ledger, game not over. -/
def initialGameState : GameState :=
  { board := getInitialBoard, turn := .white, gameOver := false, history := [] }

/-- Session operations relevant to the board lifecycle: applying a move or an
explicit reset. -/
inductive Op where
  | move (src dst : Nat × Nat)
  | resetOp
deriving DecidableEq, Repr

/-- One session operation: a failed move leaves the state unchanged, a
successful one installs the new state, and reset reinitializes the session. -/
def applyOp (g : GameState) : Op → GameState
  | .move src dst =>
    match applyMove g src dst with
    | .ok g' => g'
    | .error _ => g
  | .resetOp => initialGameState

/-- A sequence of session operations. -/
def runOps (g : GameState) : List Op → GameState
  | [] => g
  | op :: ops => runOps (applyOp g op) ops

/-- A sequence of move attempts (failed attempts leave the state unchanged). -/
def runMoves (g : GameState) : List ((Nat × Nat) × (Nat × Nat)) → GameState
  | [] => g
  | m :: ms =>
    match applyMove g m.1 m.2 with
    | .ok g' => runMoves g' ms
    | .error _ => runMoves g ms

/-- Number of successfully applied moves in a sequence of attempts. -/
def appliedCount (g : GameState) : List ((Nat × Nat) × (Nat × Nat)) → Nat
  | [] => 0
  | m :: ms =>
    match applyMove g m.1 m.2 with
    | .ok g' => appliedCount g' ms + 1
    | .error _ => appliedCount g ms

end Engine

namespace Orch

/-- State read and written by the AI-turn effect in `Chessboard.tsx`: the
store fields it consumes plus the component-local `isAITurn` /
`lastAIMoveTime` hooks and the `gameMode` / `aiColor` props (`aiMode` is
`gameMode === 'human_vs_ai'`). -/
structure OrchState where
  board : Board
  moveHistory : List MoveRecord
  turn : PieceColor
  gameOver : Bool
  loading : Bool
  isAITurn : Bool
  lastAIMoveTime : Nat
  aiMode : Bool
  aiColor : PieceColor
deriving DecidableEq, Repr

/-- The guard of `checkAndMakeAIMove` (`Chessboard.tsx` lines 48-82): the
early return when fewer than 2000 ms passed since `lastAIMoveTime`, then the
conjunction `gameMode === 'human_vs_ai' && turn === aiColor && !gameOver &&
!loading && !isAITurn`. -/
def checkGuard (s : OrchState) (now : Nat) : Bool :=
  if now - s.lastAIMoveTime < 2000 then false
  else s.aiMode && (s.turn = s.aiColor) && !s.gameOver && !s.loading && !s.isAITurn

/-- The writes performed before awaiting `aiPlayMove()`:
`setIsAITurn(true); setLastAIMoveTime(now)` with `now` captured at entry. -/
def issueRequest (s : OrchState) (now : Nat) : OrchState :=
  { s with isAITurn := true, lastAIMoveTime := now }

/-- Outcome of one awaited `aiPlayMove()` call together with the follow-up
`fetchBoard()`: a successful response with the re-fetched game data, a
response with `success == false`, or a thrown transport error (timeouts and
malformed responses surface as thrown errors in `api.ts`). -/
inductive AIPlayOutcome where
  | success (data : ServerGameData)
  | failureResponse
  | transportError

/-- The continuation after the awaited call, executed at clock time `tDone`
(which the source never reads): on success the re-fetched board, turn,
game-over flag and history are installed; on a failed response or a thrown
error nothing is touched; the `finally` block clears `isAITurn` in all
cases. -/
def resolveRequest (s : OrchState) (tDone : Nat) (o : AIPlayOutcome) : OrchState :=
  match o with
  | .success data =>
    { s with
      isAITurn := false,
      loading := false,
      board := backendBoardToFrontend data.board,
      turn := strToColor data.turn,
      gameOver := data.game_over,
      moveHistory := data.move_history }
  | .failureResponse => { s with isAITurn := false }
  | .transportError => { s with isAITurn := false }

/-- One complete run of `checkAndMakeAIMove`, entered at clock time `now` and
resolving at clock time `tDone`, without interleaved events: either the guard
fails and nothing happens, or a request is issued and later resolved. -/
def checkAndMakeAIMove (s : OrchState) (now tDone : Nat) (o : AIPlayOutcome) : OrchState :=
  if checkGuard s now then resolveRequest (issueRequest s now) tDone o else s

/-- Trace state for the interleaved semantics: the component state plus the
number of advisory requests currently in flight. -/
structure TraceState where
  orch : OrchState
  outstanding : Nat

/-- Events of the interleaved semantics: an effect invocation at clock time
`now` (which issues a request exactly when the guard passes), the resolution
of an in-flight request, and an environment step that may change the store
fields and props the effect only reads. -/
inductive OrchEvent where
  | check (now : Nat)
  | resolve (tDone : Nat) (o : AIPlayOutcome)
  | env (turn : PieceColor) (gameOver loading aiMode : Bool) (aiColor : PieceColor)

/-- One step of the interleaved semantics.  A `resolve` with nothing in
flight is a no-op (there is no continuation to run). -/
def orchStep (t : TraceState) : OrchEvent → TraceState
  | .check now =>
    if checkGuard t.orch now then
      { orch := issueRequest t.orch now, outstanding := t.outstanding + 1 }
    else t
  | .resolve tDone o =>
    if t.outstanding = 0 then t
    else { orch := resolveRequest t.orch tDone o, outstanding := t.outstanding - 1 }
  | .env turn gameOver loading aiMode aiColor =>
    { t with
      orch :=
        { t.orch with
          turn := turn, gameOver := gameOver, loading := loading,
          aiMode := aiMode, aiColor := aiColor } }

/-- Run of a list of events. -/
def orchRun (t : TraceState) : List OrchEvent → TraceState
  | [] => t
  | e :: es => orchRun (orchStep t e) es

/-- Initial trace state: mount-time component state (`isAITurn = false`,
`lastAIMoveTime = 0`, default props `human_vs_human` / black) over the
store's initial state, with no request in flight. -/
def initTrace : TraceState :=
  { orch :=
      { board := getInitialBoard, moveHistory := [], turn := .white,
        gameOver := false, loading := false, isAITurn := false,
        lastAIMoveTime := 0, aiMode := false, aiColor := .black },
    outstanding := 0 }

end Orch

namespace Cache

/-- Modelled from the spec: a position fingerprint, a deterministic digest of
(BoardState, turn) with fingerprints equal exactly when the digested pairs
are (the cache's Python source is not in the repository snapshot). -/
abbrev Fingerprint := Board × PieceColor

/-- Modelled from the spec: the fingerprint of the live position. -/
def fingerprintOf (b : Board) (turn : PieceColor) : Fingerprint := (b, turn)

/-- A requested or predicted move: source and destination squares. -/
abbrev CMove := (Nat × Nat) × (Nat × Nat)

/-- Modelled from the spec: one plan entry — the fingerprint of the position
the predicted move is meant for, and the move itself. -/
structure PlanEntry where
  expectedFingerprint : Fingerprint
  predictedMove : CMove
deriving DecidableEq, Repr

/-- Modelled from the spec: a Plan is an ordered queue of entries, consumed
front-to-back. -/
abbrev Plan := List PlanEntry

/-- Which advisory interaction served a `next` call: an entry of the existing
plan, the first entry of a freshly refilled plan (cache miss), or a direct
single-move request. -/
inductive NextSource where
  | fromPlan
  | refillMiss
  | direct
deriving DecidableEq, Repr

/-- Modelled from the spec: `refill` replays the advisor's predicted moves
against a scratch copy of the session (through `MoveApplier`, never the live
board), recording for each the fingerprint of the position it is expected to
be played in; replay stops once a predicted move fails to apply. -/
def buildPlan (g : Engine.GameState) : List CMove → Plan
  | [] => []
  | m :: ms =>
    let entry : PlanEntry :=
      { expectedFingerprint := fingerprintOf g.board g.turn, predictedMove := m }
    match Engine.applyMove g m.1 m.2 with
    | .ok g' => entry :: buildPlan g' ms
    | .error _ => [entry]

/-- Modelled from the spec: `PlanCache.next(board)`.  With no plan (or a
fully consumed one) it refills from the advisor's multi-move answer
`planned` and serves the first entry; otherwise it pops the front entry and
compares its fingerprint to the live position: on a match the predicted move
is served and the rest of the queue kept, on a mismatch the whole plan is
discarded and the direct single-move answer `suggested` is served instead.
Returns the move, the surviving cache, and which interaction served it. -/
def planNext (cache : Option Plan) (g : Engine.GameState)
    (planned : List CMove) (suggested : CMove) :
    CMove × Option Plan × NextSource :=
  match cache with
  | none =>
    match buildPlan g planned with
    | [] => (suggested, none, .direct)
    | e :: rest => (e.predictedMove, some rest, .refillMiss)
  | some [] =>
    match buildPlan g planned with
    | [] => (suggested, none, .direct)
    | e :: rest => (e.predictedMove, some rest, .refillMiss)
  | some (e :: rest) =>
    if e.expectedFingerprint = fingerprintOf g.board g.turn then
      (e.predictedMove, some rest, .fromPlan)
    else
      (suggested, none, .direct)

end Cache

namespace Config

/-- Modelled from the spec: the caching strategy modes of `StrategyConfig`. -/
inductive StrategyMode where
  | multiMoveCache
  | singleMoveAnalysis
deriving DecidableEq, Repr

/-- Modelled from the spec: `StrategyConfig` — mode plus lookahead depth
(valid range 1..10; the backend route enforcing it is not in the repository
snapshot). -/
structure StrategyConfig where
  mode : StrategyMode
  cacheDepth : Nat
deriving DecidableEq, Repr

/-- Modelled from the spec: the configuration-store error taxonomy. -/
inductive ConfigError where
  | invalidConfig
deriving DecidableEq, Repr

/-- Modelled from the spec: `ConfigurationStore.set(config)` — a depth
outside [1,10] is rejected with `InvalidConfig` and the previously active
configuration stays in force; an in-range configuration is installed. -/
def setConfig (current c : StrategyConfig) : StrategyConfig × Option ConfigError :=
  if c.cacheDepth < 1 ∨ 10 < c.cacheDepth then (current, some .invalidConfig)
  else (c, none)

end Config

theorem getD_set_self {α : Type} (l : List α) (i : Nat) (a d : α) (h : i < l.length) :
    (l.set i a).getD i d = a := by
  rw [List.getD_eq_getElem _ _ (by simpa using h)]
  exact List.getElem_set_self _

theorem getD_set_ne {α : Type} (l : List α) (i j : Nat) (a d : α) (hij : i ≠ j) :
    (l.set i a).getD j d = l.getD j d := by
  by_cases hj : j < l.length
  · rw [List.getD_eq_getElem _ _ (by simpa using hj), List.getD_eq_getElem _ _ hj]
    exact List.getElem_set_ne hij _
  · have hj' : l.length ≤ j := Nat.le_of_not_lt hj
    rw [List.getD_eq_default _ _ (by simpa using hj'), List.getD_eq_default _ _ hj']

theorem length_setSquare (b : Board) (r c : Nat) (q : Piece) :
    (setSquare b r c q).length = b.length := List.length_set _ _ _

theorem row_setSquare (b : Board) (r c : Nat) (q : Piece) (h : r < b.length) :
    (setSquare b r c q).getD r [] = (b.getD r []).set c q :=
  getD_set_self _ _ _ _ h

theorem pieceAt_setSquare_self (b : Board) (r c : Nat) (q : Piece)
    (h1 : r < b.length) (h2 : c < (b.getD r []).length) :
    pieceAt (setSquare b r c q) r c = q := by
  unfold pieceAt
  rw [row_setSquare b r c q h1, getD_set_self _ _ _ _ (by simpa using h2)]

theorem pieceAt_setSquare_ne (b : Board) (r c r' c' : Nat) (q : Piece)
    (h : ¬(r' = r ∧ c' = c)) :
    pieceAt (setSquare b r c q) r' c' = pieceAt b r' c' := by
  by_cases hr : r' = r
  · subst hr
    have hc : c ≠ c' := fun hcc => h ⟨rfl, hcc.symm⟩
    by_cases hlen : r' < b.length
    · unfold pieceAt
      rw [row_setSquare b r' c q hlen, getD_set_ne _ _ _ _ _ hc]
    · unfold pieceAt setSquare
      rw [List.set_eq_of_length_le (Nat.le_of_not_lt hlen)]
  · unfold pieceAt setSquare
    rw [getD_set_ne _ _ _ _ _ fun hh => hr hh.symm]

/-- C10: in the local store's `movePiece`, a call whose destination equals the
selected source square holding an on-turn piece does not leave the state
unchanged: the piece is removed from the board outright (the destination
write is overwritten by the source-clearing write at the same indices), every
other square is untouched, a history entry is still appended, and the turn
still flips. -/
theorem move_to_selected_square_removes_piece
    (s : LocalStore.LocalState) (r c : Nat) (p : PieceVal)
    (hsel : s.selectedSquare = some (r, c))
    (hp : pieceAt s.board r c = some p)
    (hcol : p.color = s.turn)
    (hr : r < s.board.length)
    (hc : c < (s.board.getD r []).length) :
    pieceAt (LocalStore.movePiece s (r, c)).board r c = none ∧
    (LocalStore.movePiece s (r, c)).moveHistory
      = s.moveHistory ++ [LocalStore.moveText p r c r c] ∧
    (LocalStore.movePiece s (r, c)).turn = flipColor s.turn ∧
    (∀ r' c', ¬(r' = r ∧ c' = c) →
      pieceAt (LocalStore.movePiece s (r, c)).board r' c' = pieceAt s.board r' c') ∧
    LocalStore.movePiece s (r, c) ≠ s := by
  have hstep : LocalStore.movePiece s (r, c) =
      { board := setSquare (setSquare s.board r c (some p)) r c none,
        moveHistory := s.moveHistory ++ [LocalStore.moveText p r c r c],
        turn := flipColor s.turn,
        selectedSquare := none } := by
    unfold LocalStore.movePiece
    rw [hsel]
    simp [hp, hcol]
  have hlen1 : r < (setSquare s.board r c (some p)).length := by
    rw [length_setSquare]; exact hr
  have hrow1 : c < ((setSquare s.board r c (some p)).getD r []).length := by
    rw [row_setSquare _ _ _ _ hr, List.length_set]; exact hc
  refine ⟨?_, ?_, ?_, ?_, ?_⟩
  · rw [hstep]
    exact pieceAt_setSquare_self _ _ _ _ hlen1 hrow1
  · rw [hstep]
  · rw [hstep]
  · intro r' c' hne
    rw [hstep]
    show pieceAt (setSquare (setSquare s.board r c (some p)) r c none) r' c' = _
    rw [pieceAt_setSquare_ne _ _ _ _ _ _ hne, pieceAt_setSquare_ne _ _ _ _ _ _ hne]
  · intro heq
    have hh : (LocalStore.movePiece s (r, c)).moveHistory = s.moveHistory := by rw [heq]
    rw [hstep] at hh
    have := congrArg List.length hh
    simp at this

/-- The local-store state used for the C3 counterexample: fresh board, white
to move, the white pawn square (6,0) selected. -/
def c3State : LocalStore.LocalState :=
  { board := getInitialBoard, moveHistory := [], turn := .white,
    selectedSquare := some (6, 0) }

/-- C3 counterexample: a move whose source equals its destination — white
pawn on square (6,0) moved to (6,0) — is not rejected by the local store's
`movePiece`: the history grows and the board changes (the pawn vanishes). -/
theorem move_same_square_not_rejected :
    (LocalStore.movePiece c3State (6, 0)).moveHistory ≠ c3State.moveHistory ∧
    pieceAt (LocalStore.movePiece c3State (6, 0)).board 6 0 ≠ pieceAt c3State.board 6 0 := by
  decide

/-- C3 (amended): a local-store `movePiece` call with no piece on the
selected source square, or with a piece not of the on-turn color, is rejected
with the whole state unchanged, and a `sendMove` attempted after the game is
over is rejected with the whole state unchanged; a call whose source equals
its destination is not rejected by the local store. -/
theorem move_rejection_leaves_state_unchanged :
    (∀ (s : LocalStore.LocalState) (dest : Nat × Nat) (r c : Nat),
      s.selectedSquare = some (r, c) → pieceAt s.board r c = none →
      LocalStore.movePiece s dest = s) ∧
    (∀ (s : LocalStore.LocalState) (dest : Nat × Nat) (r c : Nat) (p : PieceVal),
      s.selectedSquare = some (r, c) → pieceAt s.board r c = some p →
      p.color ≠ s.turn → LocalStore.movePiece s dest = s) ∧
    (∀ (s : RemoteStore.RemoteState) (fromSq toSq : Nat × Nat)
      (result : Except String ServerGameData),
      s.gameOver = true → RemoteStore.sendMove s fromSq toSq result = s) := by
  refine ⟨?_, ?_, ?_⟩
  · intro s dest r c hsel hp
    unfold LocalStore.movePiece
    rw [hsel]
    simp [hp]
  · intro s dest r c p hsel hp hcol
    unfold LocalStore.movePiece
    rw [hsel]
    simp [hp, hcol]
  · intro s fromSq toSq result hover
    unfold RemoteStore.sendMove
    rw [hover]
    simp

/-- Local-store state with an empty square selected. -/
def c3EmptySel : LocalStore.LocalState :=
  { board := getInitialBoard, moveHistory := [], turn := .white,
    selectedSquare := some (4, 4) }

/-- Local-store state with an opposing piece selected (black rook, white to
move). -/
def c3WrongColor : LocalStore.LocalState :=
  { board := getInitialBoard, moveHistory := [], turn := .white,
    selectedSquare := some (0, 0) }

/-- Remote-store state after the game has ended. -/
def c3OverState : RemoteStore.RemoteState :=
  { board := getInitialBoard, moveHistory := [], turn := .white,
    gameOver := true, selectedSquare := none, loading := false, error := none }

/-- Witness for the amended C3 theorem at concrete states. -/
theorem move_rejection_leaves_state_unchanged_witness :
    LocalStore.movePiece c3EmptySel (0, 0) = c3EmptySel ∧
    LocalStore.movePiece c3WrongColor (4, 4) = c3WrongColor ∧
    RemoteStore.sendMove c3OverState (6, 0) (5, 0) (Except.error "down") = c3OverState :=
  ⟨move_rejection_leaves_state_unchanged.1 c3EmptySel (0, 0) 4 4 rfl (by decide),
   move_rejection_leaves_state_unchanged.2.1 c3WrongColor (4, 4) 0 0 ⟨.R, .black⟩ rfl
     (by decide) (by decide),
   move_rejection_leaves_state_unchanged.2.2 c3OverState (6, 0) (5, 0) _ rfl⟩

/-- Witness for the C10 theorem at the concrete from-equals-to state. -/
theorem move_to_selected_square_removes_piece_witness :
    pieceAt (LocalStore.movePiece c3State (6, 0)).board 6 0 = none ∧
    (LocalStore.movePiece c3State (6, 0)).turn = flipColor c3State.turn :=
  ⟨(move_to_selected_square_removes_piece c3State 6 0 ⟨.P, .white⟩ rfl (by decide)
      (by decide) (by decide) (by decide)).1,
   (move_to_selected_square_removes_piece c3State 6 0 ⟨.P, .white⟩ rfl (by decide)
      (by decide) (by decide) (by decide)).2.2.1⟩

/-- Characterization of a successful `applyMove`: the turn flips and exactly
one record, carrying `turn_number = length/2 + 1`, is appended. -/
theorem applyMove_ok_spec (g : Engine.GameState) (src dst : Nat × Nat)
    (g' : Engine.GameState) (h : Engine.applyMove g src dst = .ok g') :
    g'.turn = flipColor g.turn ∧
    ∃ p : PieceVal, g'.history = g.history
      ++ [Engine.mkRecord p src dst (pieceAt g.board dst.1 dst.2) g.history.length] := by
  unfold Engine.applyMove at h
  split at h
  · cases h
  · split at h
    · cases h
    · rename_i p hp
      split at h
      · cases h
      · split at h
        · cases h
        · cases h
          exact ⟨rfl, p, rfl⟩

/-- After game over, `applyMove` always rejects with `ReadOnlyViolation`. -/
theorem applyMove_gameOver_rejects (g : Engine.GameState) (src dst : Nat × Nat)
    (hov : g.gameOver = true) :
    Engine.applyMove g src dst = .error .readOnlyViolation := by
  unfold Engine.applyMove
  rw [hov]
  simp

/-- A sequence of operations containing no reset preserves `gameOver = true`. -/
theorem runOps_gameOver_mono (ops : List Engine.Op) :
    ∀ g : Engine.GameState, (∀ op ∈ ops, op ≠ Engine.Op.resetOp) →
    g.gameOver = true → (Engine.runOps g ops).gameOver = true := by
  induction ops with
  | nil => intro g _ hov; exact hov
  | cons op ops ih =>
    intro g hnr hov
    have hop : op ≠ Engine.Op.resetOp := hnr op (List.mem_cons_self _ _)
    have h1 : (Engine.applyOp g op).gameOver = true := by
      cases op with
      | move src dst =>
        simp [Engine.applyOp, applyMove_gameOver_rejects g src dst hov, hov]
      | resetOp => exact absurd rfl hop
    exact ih _ (fun o ho => hnr o (List.mem_cons_of_mem _ ho)) h1

/-- C4: on the session engine, every successfully applied move flips the side
to move (turn strictly alternates), and `gameOver` is monotonic — a sequence
of operations containing no explicit reset can never revert it to false. -/
theorem turn_alternates_and_gameOver_monotonic :
    (∀ (g : Engine.GameState) (src dst : Nat × Nat) (g' : Engine.GameState),
      Engine.applyMove g src dst = .ok g' → g'.turn = flipColor g.turn) ∧
    (∀ (g : Engine.GameState) (ops : List Engine.Op),
      (∀ op ∈ ops, op ≠ Engine.Op.resetOp) → g.gameOver = true →
      (Engine.runOps g ops).gameOver = true) :=
  ⟨fun g src dst g' h => (applyMove_ok_spec g src dst g' h).1,
   fun g ops hnr hov => runOps_gameOver_mono ops g hnr hov⟩

/-- Engine state with the game already over, used by witnesses. -/
def c4OverState : Engine.GameState :=
  { board := getInitialBoard, turn := .white, gameOver := true, history := [] }

/-- Witness for C4 at concrete inputs: the opening pawn move flips the turn,
and a move attempt after game over leaves `gameOver` true. -/
theorem turn_alternates_and_gameOver_monotonic_witness :
    (Engine.applyOp Engine.initialGameState (Engine.Op.move (6, 0) (5, 0))).turn
      = flipColor Engine.initialGameState.turn ∧
    (Engine.runOps c4OverState [Engine.Op.move (6, 0) (5, 0)]).gameOver = true :=
  ⟨turn_alternates_and_gameOver_monotonic.1 Engine.initialGameState (6, 0) (5, 0) _ rfl,
   turn_alternates_and_gameOver_monotonic.2 c4OverState [Engine.Op.move (6, 0) (5, 0)]
     (by decide) rfl⟩

/-- Default record for `List.getD` reads of the ledger. -/
def dummyRecord : MoveRecord :=
  { from_pos := "", to_pos := "", piece := "", color := .white,
    captured_piece := none, is_capture := false, algebraicNote := "",
    turn_number := 0 }

/-- The ledger invariant: the i-th (0-indexed) record carries
`turn_number = i/2 + 1`. -/
def ledgerOK (g : Engine.GameState) : Prop :=
  ∀ i, i < g.history.length →
    (g.history.getD i dummyRecord).turn_number = i / 2 + 1

/-- One successful move preserves the ledger invariant and grows the ledger
by exactly one record. -/
theorem ledgerOK_step (g g' : Engine.GameState) (src dst : Nat × Nat)
    (h : Engine.applyMove g src dst = .ok g') (hg : ledgerOK g) :
    ledgerOK g' ∧ g'.history.length = g.history.length + 1 := by
  obtain ⟨-, p, hh⟩ := applyMove_ok_spec g src dst g' h
  constructor
  · intro i hi
    rw [hh] at hi ⊢
    rw [List.length_append, List.length_singleton] at hi
    by_cases hlt : i < g.history.length
    · rw [List.getD_append _ _ _ _ hlt]
      exact hg i hlt
    · have hieq : i = g.history.length := by omega
      subst hieq
      rw [List.getD_append_right _ _ _ _ (le_refl _), Nat.sub_self]
      rfl
  · rw [hh]
    simp

/-- A sequence of move attempts preserves the ledger invariant, and the
ledger grows by exactly the number of successfully applied moves. -/
theorem runMoves_ledger (ms : List ((Nat × Nat) × (Nat × Nat))) :
    ∀ g : Engine.GameState, ledgerOK g →
    ledgerOK (Engine.runMoves g ms) ∧
    (Engine.runMoves g ms).history.length
      = g.history.length + Engine.appliedCount g ms := by
  induction ms with
  | nil =>
    intro g hg
    exact ⟨hg, by simp [Engine.runMoves, Engine.appliedCount]⟩
  | cons m ms ih =>
    intro g hg
    cases hap : Engine.applyMove g m.1 m.2 with
    | ok g' =>
      obtain ⟨h1, h2⟩ := ledgerOK_step g g' m.1 m.2 hap hg
      obtain ⟨ih1, ih2⟩ := ih g' h1
      have hrun : Engine.runMoves g (m :: ms) = Engine.runMoves g' ms := by
        simp [Engine.runMoves, hap]
      have hcnt : Engine.appliedCount g (m :: ms) = Engine.appliedCount g' ms + 1 := by
        simp [Engine.appliedCount, hap]
      refine ⟨by rw [hrun]; exact ih1, ?_⟩
      rw [hrun, ih2, h2, hcnt]
      omega
    | error e =>
      obtain ⟨ih1, ih2⟩ := ih g hg
      have hrun : Engine.runMoves g (m :: ms) = Engine.runMoves g ms := by
        simp [Engine.runMoves, hap]
      have hcnt : Engine.appliedCount g (m :: ms) = Engine.appliedCount g ms := by
        simp [Engine.appliedCount, hap]
      exact ⟨by rw [hrun]; exact ih1, by rw [hrun, ih2, hcnt]⟩

/-- C6: starting from a fresh session, after any sequence of move attempts
the ledger's length equals the number of successfully applied moves, and the
i-th (0-indexed) record carries `turn_number = floor(i/2) + 1`, pairing the
white and black halves of each turn. -/
theorem ledger_length_and_turn_numbers (ms : List ((Nat × Nat) × (Nat × Nat))) :
    (Engine.runMoves Engine.initialGameState ms).history.length
      = Engine.appliedCount Engine.initialGameState ms ∧
    ∀ i, i < (Engine.runMoves Engine.initialGameState ms).history.length →
      ((Engine.runMoves Engine.initialGameState ms).history.getD i dummyRecord).turn_number
        = i / 2 + 1 := by
  have hinit : ledgerOK Engine.initialGameState := by
    intro i hi
    simp [Engine.initialGameState] at hi
  obtain ⟨h1, h2⟩ := runMoves_ledger ms Engine.initialGameState hinit
  exact ⟨by simpa [Engine.initialGameState] using h2, h1⟩

/-- Three successive legal move attempts used by the C6 witness. -/
def c6Moves : List ((Nat × Nat) × (Nat × Nat)) :=
  [((6, 0), (5, 0)), ((1, 0), (2, 0)), ((6, 4), (4, 4))]

/-- Witness for C6 at a concrete three-move game: the ledger has three
records and the third carries turn number 2. -/
theorem ledger_length_and_turn_numbers_witness :
    (Engine.runMoves Engine.initialGameState c6Moves).history.length
      = Engine.appliedCount Engine.initialGameState c6Moves ∧
    ((Engine.runMoves Engine.initialGameState c6Moves).history.getD 2 dummyRecord).turn_number
      = 2 / 2 + 1 :=
  ⟨(ledger_length_and_turn_numbers c6Moves).1,
   (ledger_length_and_turn_numbers c6Moves).2 2 (by decide)⟩

/-- In-flight invariant of the advisory effect: the `isAITurn` flag is set
exactly while one request is outstanding, and never more than one is. -/
def flightInv (t : Orch.TraceState) : Prop :=
  (t.orch.isAITurn = true ↔ t.outstanding = 1) ∧ t.outstanding ≤ 1

/-- A passing guard implies every one of its conjuncts. -/
theorem checkGuard_spec (s : Orch.OrchState) (now : Nat)
    (h : Orch.checkGuard s now = true) :
    s.aiMode = true ∧ s.turn = s.aiColor ∧ s.gameOver = false ∧
    s.loading = false ∧ s.isAITurn = false ∧ 2000 ≤ now - s.lastAIMoveTime := by
  unfold Orch.checkGuard at h
  split at h
  · cases h
  · rename_i hlt
    simp only [Bool.and_eq_true, Bool.not_eq_true', decide_eq_true_eq] at h
    exact ⟨h.1.1.1.1, h.1.1.1.2, h.1.1.2, h.1.2, h.2, by omega⟩

/-- Every event of the interleaved semantics preserves the in-flight
invariant. -/
theorem flightInv_step (t : Orch.TraceState) (e : Orch.OrchEvent)
    (h : flightInv t) : flightInv (Orch.orchStep t e) := by
  obtain ⟨h1, h2⟩ := h
  cases e with
  | check now =>
    by_cases hg : Orch.checkGuard t.orch now = true
    · have hfalse : t.orch.isAITurn = false := (checkGuard_spec _ _ hg).2.2.2.2.1
      have hout : t.outstanding = 0 := by
        rcases Nat.lt_or_ge t.outstanding 1 with hlt | hge
        · omega
        · have h1' : t.outstanding = 1 := by omega
          rw [h1.mpr h1'] at hfalse
          cases hfalse
      constructor
      · simp [Orch.orchStep, hg, Orch.issueRequest, hout]
      · simp [Orch.orchStep, hg, hout]
    · constructor <;> simp [Orch.orchStep, hg, h1, h2]
  | resolve tDone o =>
    by_cases h0 : t.outstanding = 0
    · constructor <;> simp [Orch.orchStep, h0, h1, h2]
    · have hone : t.outstanding = 1 := by omega
      constructor
      · simp [Orch.orchStep, h0, hone]
        cases o <;> simp [Orch.resolveRequest]
      · simp [Orch.orchStep, h0, hone]
  | env turn gameOver loading aiMode aiColor =>
    constructor <;> simp [Orch.orchStep, h1, h2]

/-- Runs of the interleaved semantics preserve the in-flight invariant. -/
theorem flightInv_run (es : List Orch.OrchEvent) :
    ∀ t, flightInv t → flightInv (Orch.orchRun t es) := by
  induction es with
  | nil => intro t h; exact h
  | cons e es ih => intro t h; exact ih _ (flightInv_step t e h)

/-- C2 (amended): in every state reachable by the advisory effect from
mount, at most one advisory request is in flight, and a new request is issued
only when the side to move is the advisory-controlled color in `human_vs_ai`
mode, the game is not over, at least 2000 ms have elapsed since the recorded
last-advisory timestamp — which is the issue time of the previous advisory
attempt, not the completion time of the last advisory move — and no request
is already outstanding. -/
theorem orchestrator_single_flight (es : List Orch.OrchEvent) :
    (Orch.orchRun Orch.initTrace es).outstanding ≤ 1 ∧
    ∀ now, Orch.checkGuard (Orch.orchRun Orch.initTrace es).orch now = true →
      (Orch.orchRun Orch.initTrace es).orch.aiMode = true ∧
      (Orch.orchRun Orch.initTrace es).orch.turn
        = (Orch.orchRun Orch.initTrace es).orch.aiColor ∧
      (Orch.orchRun Orch.initTrace es).orch.gameOver = false ∧
      2000 ≤ now - (Orch.orchRun Orch.initTrace es).orch.lastAIMoveTime ∧
      (Orch.orchRun Orch.initTrace es).outstanding = 0 := by
  have hinv : flightInv (Orch.orchRun Orch.initTrace es) :=
    flightInv_run es Orch.initTrace (by constructor <;> simp [Orch.initTrace])
  refine ⟨hinv.2, ?_⟩
  intro now hg
  obtain ⟨ha, ht, hgo, -, hfl, helapsed⟩ := checkGuard_spec _ now hg
  refine ⟨ha, ht, hgo, helapsed, ?_⟩
  rcases Nat.lt_or_ge (Orch.orchRun Orch.initTrace es).outstanding 1 with hlt | hge
  · omega
  · have hone : (Orch.orchRun Orch.initTrace es).outstanding = 1 := by
      have := hinv.2
      omega
    rw [hinv.1.mpr hone] at hfl
    cases hfl

/-- Event list for the C2 witness: the environment switches to
`human_vs_ai` with the advisory side (black) to move. -/
def c2Events : List Orch.OrchEvent :=
  [Orch.OrchEvent.env .black false false true .black]

/-- Witness for C2: after the environment enables advisory mode, the trace
has at most one request in flight and a guard passing at t = 5000 certifies
every issue condition. -/
theorem orchestrator_single_flight_witness :
    (Orch.orchRun Orch.initTrace c2Events).outstanding ≤ 1 ∧
    ((Orch.orchRun Orch.initTrace c2Events).orch.aiMode = true ∧
     (Orch.orchRun Orch.initTrace c2Events).orch.turn
       = (Orch.orchRun Orch.initTrace c2Events).orch.aiColor ∧
     (Orch.orchRun Orch.initTrace c2Events).orch.gameOver = false ∧
     2000 ≤ 5000 - (Orch.orchRun Orch.initTrace c2Events).orch.lastAIMoveTime ∧
     (Orch.orchRun Orch.initTrace c2Events).outstanding = 0) :=
  ⟨(orchestrator_single_flight c2Events).1,
   (orchestrator_single_flight c2Events).2 5000 (by decide)⟩

/-- Server data for the advisory move of the C2 counterexample trace: the
advisory side (black) is somehow to move again after the advisory move. -/
def c2CtrData : ServerGameData :=
  { board := fun _ => '.', turn := "black", game_over := false, move_history := [] }

/-- Prefix of the C2 counterexample trace: advisory mode is enabled and the
effect runs at t = 5000, issuing a request. -/
def c2CtrIssue : List Orch.OrchEvent :=
  [Orch.OrchEvent.env .black false false true .black,
   Orch.OrchEvent.check 5000]

/-- The C2 counterexample trace: the request issued at t = 5000 resolves
successfully — the advisory move is applied — at t = 5800. -/
def c2CtrTrace : List Orch.OrchEvent :=
  c2CtrIssue ++ [Orch.OrchEvent.resolve 5800 (Orch.AIPlayOutcome.success c2CtrData)]

/-- C2 counterexample: the guard measures the 2000 ms interval from the
issue time of the previous attempt, not from the completion of the last
advisory move.  Concretely: a request is issued at t = 5000 (one is then in
flight), the advisory move completes at t = 5800, and the effect run at
t = 7100 passes the guard and issues a new request — although only 1300 ms,
fewer than 2000, have elapsed since the last advisory move completed.  So
the claimed necessary condition is false of the program. -/
theorem advisory_interval_not_from_completion :
    (Orch.orchRun Orch.initTrace c2CtrIssue).outstanding = 1 ∧
    (Orch.orchRun Orch.initTrace c2CtrTrace).outstanding = 0 ∧
    Orch.checkGuard (Orch.orchRun Orch.initTrace c2CtrTrace).orch 7100 = true ∧
    (Orch.orchRun Orch.initTrace
      (c2CtrTrace ++ [Orch.OrchEvent.check 7100])).outstanding = 1 ∧
    7100 - 5800 < 2000 := by
  refine ⟨by decide, by decide, by decide, by decide, by decide⟩

/-- Component state with the advisory side (black) to move, used by the C5
counterexample and witness. -/
def c5State : Orch.OrchState :=
  { board := getInitialBoard, moveHistory := [], turn := .black, gameOver := false,
    loading := false, isAITurn := false, lastAIMoveTime := 0, aiMode := true,
    aiColor := .black }

/-- Server data for a successful advisory cycle in the C5 counterexample. -/
def c5Data : ServerGameData :=
  { board := fun _ => '.', turn := "white", game_over := false, move_history := [] }

/-- C5 counterexample: an advisory cycle entered at t = 5000 whose successful
call resolves at t = 5800 records 5000 — the time the request was issued —
so the recorded timestamp is not the completion time 5800. -/
theorem lastAIMoveTime_not_completion_time :
    Orch.checkGuard c5State 5000 = true ∧
    (Orch.checkAndMakeAIMove c5State 5000 5800
        (Orch.AIPlayOutcome.success c5Data)).lastAIMoveTime = 5000 ∧
    (Orch.checkAndMakeAIMove c5State 5000 5800
        (Orch.AIPlayOutcome.success c5Data)).lastAIMoveTime ≠ 5800 :=
  ⟨by decide, rfl, by decide⟩

/-- C5 (amended): whenever the guard passes and an advisory cycle runs, the
timestamp recorded for rate limiting is the `Date.now()` captured when the
request was issued, regardless of the outcome or of the clock at the moment
the cycle resolves. -/
theorem lastAIMoveTime_records_issue_time (s : Orch.OrchState) (now tDone : Nat)
    (o : Orch.AIPlayOutcome) (h : Orch.checkGuard s now = true) :
    (Orch.checkAndMakeAIMove s now tDone o).lastAIMoveTime = now := by
  unfold Orch.checkAndMakeAIMove
  rw [if_pos h]
  cases o <;> simp [Orch.resolveRequest, Orch.issueRequest]

/-- Witness for the amended C5 theorem at the concrete cycle. -/
theorem lastAIMoveTime_records_issue_time_witness :
    (Orch.checkAndMakeAIMove c5State 5000 5800
        (Orch.AIPlayOutcome.success c5Data)).lastAIMoveTime = 5000 :=
  lastAIMoveTime_records_issue_time c5State 5000 5800
    (Orch.AIPlayOutcome.success c5Data) (by decide)

/-- Component state for the C7 witness. -/
def c7State : Orch.OrchState :=
  { board := getInitialBoard, moveHistory := [], turn := .black, gameOver := false,
    loading := false, isAITurn := false, lastAIMoveTime := 0, aiMode := true,
    aiColor := .black }

/-- C7: an advisory cycle that ends in a failed response or a thrown
transport error returns to idle (`isAITurn` cleared) with the board, history,
turn and game-over flag untouched — the session stays usable — and a later
cycle can pass the guard only once the full 2000 ms rate-limit window has
elapsed again from the failed attempt. -/
theorem advisory_failure_recovery (s : Orch.OrchState) (now tDone : Nat)
    (o : Orch.AIPlayOutcome) (hg : Orch.checkGuard s now = true)
    (hfail : o = Orch.AIPlayOutcome.failureResponse ∨
      o = Orch.AIPlayOutcome.transportError) :
    (Orch.checkAndMakeAIMove s now tDone o).isAITurn = false ∧
    (Orch.checkAndMakeAIMove s now tDone o).board = s.board ∧
    (Orch.checkAndMakeAIMove s now tDone o).moveHistory = s.moveHistory ∧
    (Orch.checkAndMakeAIMove s now tDone o).turn = s.turn ∧
    (Orch.checkAndMakeAIMove s now tDone o).gameOver = s.gameOver ∧
    ∀ now2, now ≤ now2 →
      Orch.checkGuard (Orch.checkAndMakeAIMove s now tDone o) now2 = true →
      now + 2000 ≤ now2 := by
  have hs : Orch.checkAndMakeAIMove s now tDone o =
      { s with isAITurn := false, lastAIMoveTime := now } := by
    unfold Orch.checkAndMakeAIMove
    rw [if_pos hg]
    rcases hfail with rfl | rfl <;> simp [Orch.resolveRequest, Orch.issueRequest]
  rw [hs]
  refine ⟨rfl, rfl, rfl, rfl, rfl, ?_⟩
  intro now2 hle hg2
  unfold Orch.checkGuard at hg2
  split at hg2
  · cases hg2
  · rename_i hlt
    simp only at hlt
    omega

/-- Witness for C7: a cycle at t = 3000 ending in a transport error clears
the flag, changes nothing, and allows the guard to pass at t = 5100 only
because the window elapsed again. -/
theorem advisory_failure_recovery_witness :
    (Orch.checkAndMakeAIMove c7State 3000 3500
        Orch.AIPlayOutcome.transportError).isAITurn = false ∧
    (Orch.checkAndMakeAIMove c7State 3000 3500
        Orch.AIPlayOutcome.transportError).board = c7State.board ∧
    (Orch.checkAndMakeAIMove c7State 3000 3500
        Orch.AIPlayOutcome.transportError).gameOver = c7State.gameOver ∧
    3000 + 2000 ≤ 5100 := by
  have h := advisory_failure_recovery c7State 3000 3500
    Orch.AIPlayOutcome.transportError (by decide) (Or.inr rfl)
  exact ⟨h.1, h.2.1, h.2.2.2.2.1, h.2.2.2.2.2 5100 (by decide) (by decide)⟩

/-- C1: `planNext` never serves a move whose plan entry's fingerprint differs
from the live position's: a matching front entry is served and the tail kept;
a mismatching front entry causes the entire plan to be dropped (the surviving
cache is `none`, reusing no entry) with the direct single-move answer served
instead; and a refill serves the first rebuilt entry, whose fingerprint is
the live position's by construction. -/
theorem planCache_next_fingerprint_guard
    (g : Engine.GameState) (planned : List Cache.CMove) (suggested : Cache.CMove) :
    (∀ (e : Cache.PlanEntry) (rest : Cache.Plan),
      e.expectedFingerprint ≠ Cache.fingerprintOf g.board g.turn →
      Cache.planNext (some (e :: rest)) g planned suggested
        = (suggested, none, Cache.NextSource.direct)) ∧
    (∀ (e : Cache.PlanEntry) (rest : Cache.Plan),
      e.expectedFingerprint = Cache.fingerprintOf g.board g.turn →
      Cache.planNext (some (e :: rest)) g planned suggested
        = (e.predictedMove, some rest, Cache.NextSource.fromPlan)) ∧
    (∀ (e : Cache.PlanEntry) (rest : Cache.Plan),
      Cache.buildPlan g planned = e :: rest →
      Cache.planNext none g planned suggested
        = (e.predictedMove, some rest, Cache.NextSource.refillMiss) ∧
      e.expectedFingerprint = Cache.fingerprintOf g.board g.turn) := by
  refine ⟨?_, ?_, ?_⟩
  · intro e rest hne
    simp [Cache.planNext, hne]
  · intro e rest heq
    simp [Cache.planNext, heq]
  · intro e rest heq
    refine ⟨by simp [Cache.planNext, heq], ?_⟩
    cases planned with
    | nil => simp [Cache.buildPlan] at heq
    | cons m ms =>
      simp only [Cache.buildPlan] at heq
      split at heq <;> (cases heq; rfl)

/-- A plan entry whose fingerprint does not match the fresh session. -/
def c1BadEntry : Cache.PlanEntry :=
  { expectedFingerprint := (getInitialBoard, .black), predictedMove := ((6, 0), (5, 0)) }

/-- A plan entry whose fingerprint matches the fresh session. -/
def c1GoodEntry : Cache.PlanEntry :=
  { expectedFingerprint := (getInitialBoard, .white), predictedMove := ((6, 0), (5, 0)) }

/-- Advisor multi-move answer for the C1 witness. -/
def c1Planned : List Cache.CMove := [((6, 0), (5, 0))]

/-- Witness for C1 at concrete cache states: mismatch falls back to a direct
request with the plan dropped, match serves the front entry, and a refill
serves the first rebuilt entry. -/
theorem planCache_next_fingerprint_guard_witness :
    Cache.planNext (some [c1BadEntry]) Engine.initialGameState [] ((0, 0), (1, 1))
      = (((0, 0), (1, 1)), none, Cache.NextSource.direct) ∧
    Cache.planNext (some [c1GoodEntry]) Engine.initialGameState [] ((0, 0), (1, 1))
      = (c1GoodEntry.predictedMove, some [], Cache.NextSource.fromPlan) ∧
    Cache.planNext none Engine.initialGameState c1Planned ((0, 0), (1, 1))
      = (c1GoodEntry.predictedMove, some [], Cache.NextSource.refillMiss) :=
  ⟨(planCache_next_fingerprint_guard Engine.initialGameState [] ((0, 0), (1, 1))).1
      c1BadEntry [] (by decide),
   (planCache_next_fingerprint_guard Engine.initialGameState [] ((0, 0), (1, 1))).2.1
      c1GoodEntry [] (by decide),
   ((planCache_next_fingerprint_guard Engine.initialGameState c1Planned
      ((0, 0), (1, 1))).2.2 c1GoodEntry [] (by decide)).1⟩

/-- C8: a configuration whose `cacheDepth` lies outside [1,10] is rejected
with `InvalidConfig` and the previously active configuration stays in force;
one inside [1,10] is installed. -/
theorem config_set_depth_validation (current c : Config.StrategyConfig) :
    (¬(1 ≤ c.cacheDepth ∧ c.cacheDepth ≤ 10) →
      Config.setConfig current c = (current, some Config.ConfigError.invalidConfig)) ∧
    ((1 ≤ c.cacheDepth ∧ c.cacheDepth ≤ 10) →
      Config.setConfig current c = (c, none)) := by
  constructor
  · intro h
    unfold Config.setConfig
    rw [if_pos (by omega)]
  · intro h
    unfold Config.setConfig
    rw [if_neg (by omega)]

/-- The active configuration of the C8 witness. -/
def c8Current : Config.StrategyConfig := { mode := .multiMoveCache, cacheDepth := 5 }

/-- An out-of-range configuration (depth 11). -/
def c8Bad : Config.StrategyConfig := { mode := .multiMoveCache, cacheDepth := 11 }

/-- An in-range configuration (depth 3). -/
def c8Good : Config.StrategyConfig := { mode := .singleMoveAnalysis, cacheDepth := 3 }

/-- Witness for C8 at concrete configurations. -/
theorem config_set_depth_validation_witness :
    Config.setConfig c8Current c8Bad
      = (c8Current, some Config.ConfigError.invalidConfig) ∧
    Config.setConfig c8Current c8Good = (c8Good, none) :=
  ⟨(config_set_depth_validation c8Current c8Bad).1 (by decide),
   (config_set_depth_validation c8Current c8Good).2 (by decide)⟩

/-- The thirteen values a wire square may hold: the twelve piece codes (case
distinguishing color) and the empty sentinel. -/
def validWireCodes : List Char :=
  ['K', 'Q', 'R', 'B', 'N', 'P', 'k', 'q', 'r', 'b', 'n', 'p', '.']

/-- Decoding then re-encoding a valid wire code is the identity. -/
theorem code_roundtrip (c : Char) (h : c ∈ validWireCodes) :
    pieceCode (codeToPiece c) = c := by
  simp only [validWireCodes, List.mem_cons, List.not_mem_nil, or_false] at h
  rcases h with rfl | rfl | rfl | rfl | rfl | rfl | rfl | rfl | rfl | rfl | rfl | rfl | rfl
    <;> decide

theorem getD_map_lt {α β : Type} (f : α → β) (l : List α) (i : Nat) (d : β) (d' : α)
    (h : i < l.length) : (l.map f).getD i d = f (l.getD i d') := by
  have h' : i < (l.map f).length := by simpa using h
  have h1 := List.getD_eq_getElem (l.map f) d h'
  have h2 := List.getD_eq_getElem l d' h
  rw [h1, h2]
  exact List.getElem_map _

theorem getD_mem_of_lt {α : Type} (l : List α) (i : Nat) (d : α) (h : i < l.length) :
    l.getD i d ∈ l := by
  have he := List.getD_eq_getElem l d h
  rw [he]
  exact List.getElem_mem h

/-- C9: the boundary representation round-trips losslessly — for any wire
board whose 64 squares carry only valid piece codes or the empty sentinel,
decoding through `backendBoardToFrontend` and re-encoding restores every
square's code — and a successful move response installs exactly the turn,
game-over flag and ordered move history the wire carried. -/
theorem wire_board_roundtrip :
    (∀ (w : WireBoard),
      (∀ file ∈ wireFiles, ∀ rank ∈ wireRanks,
        w (squareKey file rank) ∈ validWireCodes) →
      ∀ ri ci : Nat, ri < 8 → ci < 8 →
        pieceCode (pieceAt (backendBoardToFrontend w) ri ci)
          = w (squareKey (wireFiles.getD ci ' ') (wireRanks.getD ri ' '))) ∧
    (∀ (s : RemoteStore.RemoteState) (fromSq toSq : Nat × Nat)
      (data : ServerGameData), s.gameOver = false →
      (RemoteStore.sendMove s fromSq toSq (.ok data)).turn = strToColor data.turn ∧
      (RemoteStore.sendMove s fromSq toSq (.ok data)).gameOver = data.game_over ∧
      (RemoteStore.sendMove s fromSq toSq (.ok data)).moveHistory
        = data.move_history) := by
  constructor
  · intro w hvalid ri ci hri hci
    have h8r : ri < wireRanks.length := by simpa [wireRanks] using hri
    have h8c : ci < wireFiles.length := by simpa [wireFiles] using hci
    unfold pieceAt backendBoardToFrontend
    rw [getD_map_lt _ _ _ _ ' ' h8r, getD_map_lt _ _ _ _ ' ' h8c]
    exact code_roundtrip _
      (hvalid _ (getD_mem_of_lt _ _ _ h8c) _ (getD_mem_of_lt _ _ _ h8r))
  · intro s fromSq toSq data hov
    unfold RemoteStore.sendMove
    rw [hov]
    simp

/-- The all-empty wire board used by the C9 witness. -/
def c9Wire : WireBoard := fun _ => '.'

/-- Server data used by the C9 witness. -/
def c9Data : ServerGameData :=
  { board := c9Wire, turn := "black", game_over := false, move_history := [] }

/-- A live remote-store state used by the C9 witness. -/
def c9Live : RemoteStore.RemoteState :=
  { board := getInitialBoard, moveHistory := [], turn := .white,
    gameOver := false, selectedSquare := none, loading := false, error := none }

/-- Witness for C9 at the all-empty wire board and a concrete response. -/
theorem wire_board_roundtrip_witness :
    pieceCode (pieceAt (backendBoardToFrontend c9Wire) 0 0)
      = c9Wire (squareKey (wireFiles.getD 0 ' ') (wireRanks.getD 0 ' ')) ∧
    (RemoteStore.sendMove c9Live (6, 0) (5, 0) (.ok c9Data)).turn
      = strToColor c9Data.turn :=
  ⟨wire_board_roundtrip.1 c9Wire (by decide) 0 0 (by decide) (by decide),
   (wire_board_roundtrip.2 c9Live (6, 0) (5, 0) c9Data rfl).1⟩
